import Mathlib

/-!
Shallow embedding of `src/main.rs` (an EC2 instance-listing tool).

The program enumerates EC2 instances in one region or all catalog regions,
paginating `describe_instances` with a page bound of 25, flattens the
reservations of every page into `Details` records, and writes the result
as JSON to `instance_results.json`.

External effects (the rusoto SDK client, tokio file IO, serde_json) are
modelled as explicit parameters:
  * the SDK is a script, one `Except Unit DescribeInstancesResult` entry
    per issued page fetch, in fetch order (an arbitrary, possibly
    stateful, remote endpoint);
  * file creation and the final write are booleans in `Env`;
  * serialization is an `Option String`-valued function in `Env`.
Everything else is translated directly from the source.
-/

namespace EC2Mon

/-- rusoto `Tag`: the two fields the program reads. -/
structure Tag where
  key : Option String
  value : Option String
deriving DecidableEq

/-- rusoto `InstanceState` (fields `code` and `name`; only `name` is read). -/
structure InstanceState where
  code : Option Int
  name : Option String
deriving DecidableEq

/-- rusoto `Instance`, restricted to the fields the program reads. -/
structure Instance where
  instance_id : Option String
  instance_type : Option String
  key_name : Option String
  launch_time : Option String
  source_dest_check : Option Bool
  state : Option InstanceState
  tags : Option (List Tag)
deriving DecidableEq

/-- rusoto `Reservation`, restricted to the field the program reads. -/
structure Reservation where
  instances : Option (List Instance)
deriving DecidableEq

/-- rusoto `Filter` (never constructed by the program: `filters` stays `None`). -/
structure Filter where
  name : Option String
  values : Option (List String)
deriving DecidableEq

/-- rusoto `DescribeInstancesRequest` (`max_results` is an `i64`, modelled as `Int`). -/
structure DescribeInstancesRequest where
  dry_run : Option Bool
  filters : Option (List Filter)
  instance_ids : Option (List String)
  max_results : Option Int
  next_token : Option String
deriving DecidableEq

/-- rusoto `DescribeInstancesResult`. -/
structure DescribeInstancesResult where
  reservations : Option (List Reservation)
  next_token : Option String
deriving DecidableEq

/-- `struct TagMap` from the source. -/
structure TagMap where
  environment : Option String
  name : Option String
  project : Option String
deriving DecidableEq

/-- `struct Details` from the source (the serialized output record). -/
structure Details where
  environment : Option String
  instance_id : Option String
  instance_type : Option String
  key_name : Option String
  launch_time : Option String
  name : Option String
  project : Option String
  region : String
  source_dest_check : Option Bool
  state : Option String
deriving DecidableEq

/-- `type DetailResult = Result<Option<Vec<Details>>, RusotoError<...>>`;
the opaque-to-the-program error payload is modelled as `Unit`. -/
abbrev DetailResult := Except Unit (Option (List Details))

instance exceptDecEq {ε α : Type} [DecidableEq ε] [DecidableEq α] :
    DecidableEq (Except ε α) := fun x y =>
  match x, y with
  | Except.ok a, Except.ok b =>
    if h : a = b then isTrue (by rw [h]) else isFalse (by intro hc; cases hc; exact h rfl)
  | Except.ok _, Except.error _ => isFalse (by intro hc; cases hc)
  | Except.error _, Except.ok _ => isFalse (by intro hc; cases hc)
  | Except.error e, Except.error f =>
    if h : e = f then isTrue (by rw [h]) else isFalse (by intro hc; cases hc; exact h rfl)

/-- `fn region_list()`: the fixed region catalog, in declared order. -/
def region_list : List String :=
  [ "ap-east-1",
    "ap-northeast-1",
    "ap-northeast-2",
    "ap-northeast-3",
    "ap-south-1",
    "ap-southeast-1",
    "ap-southeast-2",
    "ca-central-1",
    "eu-central-1",
    "eu-west-1",
    "eu-west-2",
    "eu-west-3",
    "eu-north-1",
    "eu-south-1",
    "me-south-1",
    "sa-east-1",
    "us-east-1",
    "us-east-2",
    "us-west-1",
    "us-west-2",
    "cn-north-1",
    "cn-northwest-1",
    "af-south-1" ]

/-- `fn get_instance_request(max_items: Option<i64>)`. -/
def get_instance_request (max_items : Option Int) : DescribeInstancesRequest :=
  { dry_run := none
    filters := none
    instance_ids := none
    max_results := max_items
    next_token := none }

/-- The continuation request built inside `fn describe_instances` when a page
carries a token: `get_instance_request(Some(25))` with `next_token` set. -/
def next_request (tok : Option String) : DescribeInstancesRequest :=
  { get_instance_request (some 25) with next_token := tok }

/-- The body of the `for val in tag_iter` loop in `fn map_tags`. -/
def map_tags_step (tag_map : TagMap) (val : Tag) : TagMap :=
  if val.key == some "Name" then { tag_map with name := val.value }
  else if val.key == some "Project" then { tag_map with project := val.value }
  else if val.key == some "Environment" then { tag_map with environment := val.value }
  else tag_map

/-- `fn map_tags(tags: Option<Vec<Tag>>) -> TagMap`: filter to the three
recognized keys, then fold the loop body over the filtered list. -/
def map_tags (tags : Option (List Tag)) : TagMap :=
  let tag_map : TagMap := { project := none, environment := none, name := none }
  let tag_iter := (tags.getD []).filter (fun t =>
    t.key == some "Name" || t.key == some "Project" || t.key == some "Environment")
  tag_iter.foldl map_tags_step tag_map

/-- `fn instance_map(instances: Option<Vec<Instance>>, region: &str)`. -/
def instance_map (instances : Option (List Instance)) (region : String) :
    Option (List Details) :=
  match instances with
  | none => none
  | some is =>
    some (is.map (fun a =>
      let tag_map := map_tags a.tags
      { instance_id := a.instance_id
        instance_type := a.instance_type
        key_name := a.key_name
        launch_time := a.launch_time
        region := region
        source_dest_check := a.source_dest_check
        state := match a.state with
          | some s => s.name
          | _ => none
        name := tag_map.name
        project := tag_map.project
        environment := tag_map.environment }))

/-- `fn process_reservations(reservations: Option<Vec<Reservation>>, region: String)`:
`filter(is_some)` followed by `map(unwrap)` is rendered as the total
`filterMap (fun o => o)` over the filtered list. -/
def process_reservations (reservations : Option (List Reservation)) (region : String) :
    Option (List Details) :=
  match reservations with
  | some r =>
    some (((((r.map (fun rv => instance_map rv.instances region)).filter
        (fun rv => rv.isSome)).filterMap (fun rv => rv)).flatten))
  | none => none

/-- `struct RequestContext` (the `client` handle, pure IO, is dropped). -/
structure RequestContext where
  request : Option DescribeInstancesRequest
  region : String
deriving DecidableEq

/-- One step of the `stream::unfold` closure in `fn describe_instances`,
given the SDK response `resp` to the fetch this step would issue.
`none` means the stream ends (state `ctx = None`, the `rc.request?`
early return, or `Err(_)`); `some (item, ctx2)` emits `item` and
continues from `ctx2`. -/
def unfoldStep (resp : Except Unit DescribeInstancesResult)
    (ctx : Option RequestContext) : Option (DetailResult × Option RequestContext) :=
  match ctx with
  | none => none
  | some rc =>
    match rc.request with
    | none => none
    | some _ =>
      match resp with
      | Except.ok r =>
        let result := process_reservations r.reservations rc.region
        match r.next_token with
        | none => some (Except.ok result, none)
        | some _ =>
          some (Except.ok result,
            some { request := some (next_request r.next_token)
                   region := rc.region })
      | Except.error _ => none

/-- The stream state built by `fn describe_instances` before unfolding:
`Active` with a request bounded to 25 items and no continuation token. -/
def describe_instances_init (region : String) : Option RequestContext :=
  some { request := some (get_instance_request (some 25)), region := region }

/-- The items the unfolded stream emits, with the SDK scripted as one
response per issued fetch, in fetch order. Responses beyond the point
where the stream ends are never consumed. -/
def paginateItems (script : List (Except Unit DescribeInstancesResult))
    (ctx : Option RequestContext) : List DetailResult :=
  match script with
  | [] => []
  | resp :: rest =>
    match unfoldStep resp ctx with
    | none => []
    | some (item, ctx2) => item :: paginateItems rest ctx2

/-- The requests the unfolded stream actually hands to the SDK, in fetch
order. A request is recorded exactly when the state is `Some rc` with
`rc.request` present (the only situation in which the source calls
`describe_instances`); the fetch whose response is `Err(_)` is recorded
even though it emits no item. -/
def issuedRequests (script : List (Except Unit DescribeInstancesResult))
    (ctx : Option RequestContext) : List DescribeInstancesRequest :=
  match script with
  | [] => []
  | resp :: rest =>
    match ctx with
    | none => []
    | some rc =>
      match rc.request with
      | none => []
      | some req =>
        req ::
          (match unfoldStep resp ctx with
           | none => []
           | some (_, ctx2) => issuedRequests rest ctx2)

/-- The successive stream states the unfold loop passes through (the
reachable states), starting from `ctx`. -/
def ctx_states (script : List (Except Unit DescribeInstancesResult))
    (ctx : Option RequestContext) : List (Option RequestContext) :=
  match script with
  | [] => [ctx]
  | resp :: rest =>
    match unfoldStep resp ctx with
    | none => [ctx]
    | some (_, ctx2) => ctx :: ctx_states rest ctx2

/-- `fn process_region`: drain the stream, keep `Ok` items
(`filter_map(v.ok())`), keep present pages (`filter_map(v)`), flatten. -/
def process_region (script : List (Except Unit DescribeInstancesResult))
    (region : String) : List Details :=
  let s := paginateItems script (describe_instances_init region)
  let s := s.filterMap (fun v => v.toOption)
  let s := s.filterMap (fun v => v)
  s.flatten

/-- `fn process_all_regions`: a `for` loop over the catalog, extending the
accumulator with each region's result. The SDK script is per-region. -/
def process_all_regions (sdk : String → List (Except Unit DescribeInstancesResult)) :
    List Details :=
  region_list.foldl (fun output r => output ++ process_region (sdk r) r) []

/-- `fn process_single_region`. -/
def process_single_region (sdk : String → List (Except Unit DescribeInstancesResult))
    (region : String) : List Details :=
  process_region (sdk region) region

/-- Observable side effects of a run, in order: successful creation of the
output file, one entry per SDK page fetch, the successful final write. -/
inductive Effect where
  | fileCreate : Effect
  | sdkFetch (region : String) (req : DescribeInstancesRequest) : Effect
  | fileWrite (payload : String) : Effect
deriving DecidableEq

/-- How the process ends: a fatal `panic!`-style abort with its message,
or the success path with its confirmation message. -/
inductive Outcome where
  | fatal (msg : String) : Outcome
  | success (msg : String) : Outcome
deriving DecidableEq

/-- The external world of a run: the SDK script for each region, whether
file creation and the final write succeed, and serde_json serialization
(`none` = serialization error). -/
structure Env where
  sdk : String → List (Except Unit DescribeInstancesResult)
  createOk : Bool
  writeOk : Bool
  serialize : List Details → Option String

/-- The fetch effects `process_region` performs for one region. -/
def region_fetch_effects (sdk : String → List (Except Unit DescribeInstancesResult))
    (region : String) : List Effect :=
  (issuedRequests (sdk region) (describe_instances_init region)).map
    (fun req => Effect.sdkFetch region req)

/-- `async fn run(region)`: create `instance_results.json` (fatal on
failure), compute the output for `"all"` or a single region,
serialize with `unwrap_or("")`, write (fatal on failure). -/
def run_model (env : Env) (region : String) : List Effect × Outcome :=
  match env.createOk with
  | false => ([], Outcome.fatal "couldn\x27t create instance_results.json")
  | true =>
    let output : List Details :=
      if region == "all" then process_all_regions env.sdk
      else process_single_region env.sdk region
    let fetches : List Effect :=
      if region == "all" then (region_list.map (region_fetch_effects env.sdk)).flatten
      else region_fetch_effects env.sdk region
    let writable : String := (env.serialize output).getD ""
    match env.writeOk with
    | false => (Effect.fileCreate :: fetches, Outcome.fatal "couldn\x27t write to instance_results.json")
    | true =>
      (Effect.fileCreate :: fetches ++ [Effect.fileWrite writable],
       Outcome.success "successfully wrote to instance_results.json")

/-- The message of the `panic!` taken when no argument is supplied. -/
def no_args_msg : String :=
  "no arguments were provided\nPlease provide a valid region or \x27all\x27 to get an output from every available region"

/-- The message of the `panic!` taken for an unrecognized region selector
(the doubled word in the source text is kept verbatim). -/
def invalid_region_msg : String :=
  "The supplied region does not match any of the the available options: "
    ++ String.intercalate ",\n" region_list ++ ",\nall"

/-- `async fn main()`: `args` includes the program name at position 0.
An empty `args` would hit the out-of-bounds index in `args[1]` (it cannot
happen under `std::env::args`). -/
def main_model (env : Env) (args : List String) : List Effect × Outcome :=
  match args with
  | [] => ([], Outcome.fatal "index out of bounds: the len is 0 but the index is 1")
  | [_] => ([], Outcome.fatal no_args_msg)
  | _ :: region :: _ =>
    if !(region_list.contains region) && !(region == "all") then
      ([], Outcome.fatal invalid_region_msg)
    else run_model env region

/-- Modelled from the spec words, for comparison with `map_tags`: the slot
for `key` holds the value (possibly absent) of the last pair in list order
whose key exactly equals `key`; pairs with any other key or an absent key
are ignored. -/
def spec_tag_slot (key : String) (tags : List Tag) : Option String :=
  match (tags.filter (fun t => t.key == some key)).getLast? with
  | some t => t.value
  | none => none

/-- A stub environment: every region answers with an empty script, file
operations succeed, serialization fails. -/
def stub_env : Env :=
  { sdk := fun _ => [], createOk := true, writeOk := true, serialize := fun _ => none }

/-- A raw instance with every optional field absent except its id. -/
def bare_instance : Instance :=
  { instance_id := some "i-1"
    instance_type := none
    key_name := none
    launch_time := none
    source_dest_check := none
    state := none
    tags := none }

/-- A raw instance with an id and a single `Name` tag. -/
def named_instance : Instance :=
  { instance_id := some "i-1"
    instance_type := none
    key_name := none
    launch_time := none
    source_dest_check := none
    state := none
    tags := some [{ key := some "Name", value := some "svc" }] }

/-- A page holding one reservation with `bare_instance`, carrying token `t1`. -/
def bare_page : DescribeInstancesResult :=
  { reservations := some [{ instances := some [bare_instance] }]
    next_token := some "t1" }

/-- A one-page script: one reservation with `named_instance`, no token. -/
def named_sdk : String → List (Except Unit DescribeInstancesResult) :=
  fun _ => [Except.ok { reservations := some [{ instances := some [named_instance] }]
                        next_token := none }]

/-- The `Details` record the pipeline builds from `bare_instance`. -/
def bare_details (region : String) : Details :=
  { environment := none
    instance_id := some "i-1"
    instance_type := none
    key_name := none
    launch_time := none
    name := none
    project := none
    region := region
    source_dest_check := none
    state := none }

/-- The `Details` record the pipeline builds from `named_instance`. -/
def named_details (region : String) : Details :=
  { bare_details region with name := some "svc" }

/-- The three-page script of the spec example: tokens on pages 1 and 2,
none on page 3, empty payloads. -/
def three_pages : List DescribeInstancesResult :=
  [ { reservations := none, next_token := some "t1" },
    { reservations := none, next_token := some "t2" },
    { reservations := none, next_token := none } ]

lemma paginateItems_none (script : List (Except Unit DescribeInstancesResult)) :
    paginateItems script none = [] := by
  cases script <;> rfl

lemma issuedRequests_none (script : List (Except Unit DescribeInstancesResult)) :
    issuedRequests script none = [] := by
  cases script <;> rfl

lemma foldl_map_tags_step (l : List Tag) : ∀ init : TagMap,
    l.foldl map_tags_step init =
      { name := ((l.filter (fun t => t.key == some "Name")).getLast?).elim init.name Tag.value
        project := ((l.filter (fun t => t.key == some "Project")).getLast?).elim init.project Tag.value
        environment :=
          ((l.filter (fun t => t.key == some "Environment")).getLast?).elim init.environment Tag.value } := by
  induction l using List.reverseRecOn with
  | nil => intro init; simp
  | append_singleton l a ih =>
    intro init
    rw [List.foldl_append, List.foldl_cons, List.foldl_nil, ih init]
    by_cases hn : a.key == some "Name"
    · have hk := eq_of_beq hn
      simp [map_tags_step, List.filter_append, hk, List.getLast?_concat]
    · by_cases hp : a.key == some "Project"
      · have hk := eq_of_beq hp
        simp [map_tags_step, List.filter_append, hk, List.getLast?_concat]
      · by_cases he : a.key == some "Environment"
        · have hk := eq_of_beq he
          simp [map_tags_step, List.filter_append, hk, List.getLast?_concat]
        · simp [map_tags_step, List.filter_append, hn, hp, he]

lemma filter_key_of_filter_recognized (tags : List Tag) (k : String)
    (hk : ∀ t : Tag, t.key == some k →
      (t.key == some "Name" || t.key == some "Project" || t.key == some "Environment") = true) :
    ((tags.filter (fun t =>
        t.key == some "Name" || t.key == some "Project" || t.key == some "Environment")).filter
      (fun t => t.key == some k)) = tags.filter (fun t => t.key == some k) := by
  rw [List.filter_filter]
  refine List.filter_congr ?_
  intro t _
  by_cases h : t.key == some k
  · simp [h, hk t h]
  · simp [h]

lemma map_tags_some_eq (tags : List Tag) :
    map_tags (some tags) =
      { name := spec_tag_slot "Name" tags
        project := spec_tag_slot "Project" tags
        environment := spec_tag_slot "Environment" tags } := by
  show (tags.filter _).foldl map_tags_step _ = _
  rw [foldl_map_tags_step]
  rw [filter_key_of_filter_recognized tags "Name" (by intro t h; simp [h]),
      filter_key_of_filter_recognized tags "Project" (by intro t h; simp [h]),
      filter_key_of_filter_recognized tags "Environment" (by intro t h; simp [h])]
  unfold spec_tag_slot
  cases (tags.filter (fun t => t.key == some "Name")).getLast? <;>
    cases (tags.filter (fun t => t.key == some "Project")).getLast? <;>
    cases (tags.filter (fun t => t.key == some "Environment")).getLast? <;> rfl

lemma foldl_extend (l : List String) (f : String → List Details) :
    ∀ acc : List Details,
      l.foldl (fun output r => output ++ f r) acc = acc ++ (l.map f).flatten := by
  induction l with
  | nil => intro acc; simp
  | cons r rs ih => intro acc; simp [ih, List.append_assoc]

lemma paginateItems_step_some (r : DescribeInstancesResult) (t : String)
    (ht : r.next_token = some t) (rest : List (Except Unit DescribeInstancesResult))
    (req : DescribeInstancesRequest) (region : String) :
    paginateItems (Except.ok r :: rest) (some ⟨some req, region⟩)
      = Except.ok (process_reservations r.reservations region)
          :: paginateItems rest (some ⟨some (next_request r.next_token), region⟩) := by
  simp only [paginateItems, unfoldStep, ht]

lemma paginateItems_step_last (r : DescribeInstancesResult)
    (ht : r.next_token = none) (rest : List (Except Unit DescribeInstancesResult))
    (req : DescribeInstancesRequest) (region : String) :
    paginateItems (Except.ok r :: rest) (some ⟨some req, region⟩)
      = [Except.ok (process_reservations r.reservations region)] := by
  simp only [paginateItems, unfoldStep, ht, paginateItems_none]

lemma paginateItems_step_error (e : Unit) (rest : List (Except Unit DescribeInstancesResult))
    (req : DescribeInstancesRequest) (region : String) :
    paginateItems (Except.error e :: rest) (some ⟨some req, region⟩) = [] := by
  simp only [paginateItems, unfoldStep]

lemma issuedRequests_step_some (r : DescribeInstancesResult) (t : String)
    (ht : r.next_token = some t) (rest : List (Except Unit DescribeInstancesResult))
    (req : DescribeInstancesRequest) (region : String) :
    issuedRequests (Except.ok r :: rest) (some ⟨some req, region⟩)
      = req :: issuedRequests rest (some ⟨some (next_request r.next_token), region⟩) := by
  simp only [issuedRequests, unfoldStep, ht]

lemma issuedRequests_step_last (r : DescribeInstancesResult)
    (ht : r.next_token = none) (rest : List (Except Unit DescribeInstancesResult))
    (req : DescribeInstancesRequest) (region : String) :
    issuedRequests (Except.ok r :: rest) (some ⟨some req, region⟩) = [req] := by
  simp only [issuedRequests, unfoldStep, ht, issuedRequests_none]

lemma issuedRequests_step_error (e : Unit) (rest : List (Except Unit DescribeInstancesResult))
    (req : DescribeInstancesRequest) (region : String) :
    issuedRequests (Except.error e :: rest) (some ⟨some req, region⟩) = [req] := by
  simp only [issuedRequests, unfoldStep]

lemma pag_success_run (pages : List DescribeInstancesResult) :
    ∀ (req : DescribeInstancesRequest) (region : String)
      (extra : List (Except Unit DescribeInstancesResult)),
      (∀ p ∈ pages.dropLast, (p.next_token).isSome = true) →
      ((pages.getLast?).map (fun p => p.next_token)) = some none →
      paginateItems (pages.map Except.ok ++ extra) (some ⟨some req, region⟩)
          = pages.map (fun p => Except.ok (process_reservations p.reservations region))
        ∧ issuedRequests (pages.map Except.ok ++ extra) (some ⟨some req, region⟩)
          = req :: pages.dropLast.map (fun p => next_request p.next_token) := by
  induction pages with
  | nil => intro req region extra _ h2; simp at h2
  | cons p ps ih =>
    intro req region extra h1 h2
    cases ps with
    | nil =>
      have htok : p.next_token = none := by
        simp [List.getLast?] at h2
        exact h2
      constructor
      · simp only [List.map_cons, List.map_nil, List.nil_append, List.cons_append]
        rw [paginateItems_step_last p htok extra req region]
      · simp only [List.map_cons, List.map_nil, List.nil_append, List.cons_append,
          List.dropLast_single]
        rw [issuedRequests_step_last p htok extra req region]
    | cons q rest =>
      have hmem : p ∈ (p :: q :: rest).dropLast := by
        rw [show (p :: q :: rest).dropLast = p :: (q :: rest).dropLast from rfl]
        exact List.mem_cons_self p _
      obtain ⟨t, ht⟩ := Option.isSome_iff_exists.mp (h1 p hmem)
      have h1' : ∀ r ∈ (q :: rest).dropLast, (r.next_token).isSome = true := by
        intro r hr
        refine h1 r ?_
        rw [show (p :: q :: rest).dropLast = p :: (q :: rest).dropLast from rfl]
        exact List.mem_cons_of_mem p hr
      have h2' : (((q :: rest).getLast?).map (fun r => r.next_token)) = some none := by
        rw [← List.getLast?_cons_cons (a := p)]
        exact h2
      obtain ⟨ihItems, ihReqs⟩ :=
        ih (next_request p.next_token) region extra h1' h2'
      simp only [List.map_cons, List.cons_append] at ihItems ihReqs
      constructor
      · simp only [List.map_cons, List.cons_append]
        rw [paginateItems_step_some p t ht _ req region, ihItems]
      · simp only [List.map_cons, List.cons_append]
        rw [issuedRequests_step_some p t ht _ req region, ihReqs,
            show (p :: q :: rest).dropLast = p :: (q :: rest).dropLast from rfl,
            List.map_cons]

lemma pag_error_run (pages : List DescribeInstancesResult) :
    ∀ (req : DescribeInstancesRequest) (region : String)
      (extra : List (Except Unit DescribeInstancesResult)),
      (∀ p ∈ pages, (p.next_token).isSome = true) →
      paginateItems (pages.map Except.ok ++ Except.error () :: extra) (some ⟨some req, region⟩)
          = pages.map (fun p => Except.ok (process_reservations p.reservations region))
        ∧ issuedRequests (pages.map Except.ok ++ Except.error () :: extra) (some ⟨some req, region⟩)
          = req :: pages.map (fun p => next_request p.next_token) := by
  induction pages with
  | nil =>
    intro req region extra _
    constructor
    · simp only [List.map_nil, List.nil_append]
      exact paginateItems_step_error () extra req region
    · simp only [List.map_nil, List.nil_append]
      exact issuedRequests_step_error () extra req region
  | cons p ps ih =>
    intro req region extra h1
    obtain ⟨t, ht⟩ := Option.isSome_iff_exists.mp (h1 p (List.mem_cons_self p ps))
    have h1' : ∀ r ∈ ps, (r.next_token).isSome = true :=
      fun r hr => h1 r (List.mem_cons_of_mem p hr)
    obtain ⟨ihItems, ihReqs⟩ :=
      ih (next_request p.next_token) region extra h1'
    constructor
    · simp only [List.map_cons, List.cons_append]
      rw [paginateItems_step_some p t ht _ req region, ihItems]
    · simp only [List.map_cons, List.cons_append]
      rw [issuedRequests_step_some p t ht _ req region, ihReqs]

lemma instance_map_region (instances : Option (List Instance)) (region : String)
    (ds : List Details) (hds : instance_map instances region = some ds) :
    ∀ d ∈ ds, d.region = region := by
  cases instances with
  | none => simp [instance_map] at hds
  | some is =>
    simp only [instance_map, Option.some.injEq] at hds
    intro d hd
    rw [← hds] at hd
    obtain ⟨a, _, ha⟩ := List.mem_map.mp hd
    rw [← ha]

lemma process_reservations_region (reservations : Option (List Reservation)) (region : String)
    (ds : List Details) (hds : process_reservations reservations region = some ds) :
    ∀ d ∈ ds, d.region = region := by
  cases reservations with
  | none => simp [process_reservations] at hds
  | some rs =>
    simp only [process_reservations, Option.some.injEq] at hds
    intro d hd
    rw [← hds] at hd
    obtain ⟨l, hl, hdl⟩ := List.mem_flatten.mp hd
    obtain ⟨o, ho, hol⟩ := List.mem_filterMap.mp hl
    have ho2 : o ∈ rs.map (fun rv => instance_map rv.instances region) :=
      List.mem_of_mem_filter ho
    obtain ⟨rv, _, hrv⟩ := List.mem_map.mp ho2
    exact instance_map_region rv.instances region l (hrv.trans hol) d hdl

lemma unfoldStep_next_ctx (resp : Except Unit DescribeInstancesResult)
    (ctx : Option RequestContext) (item : DetailResult) (ctx2 : Option RequestContext)
    (h : unfoldStep resp ctx = some (item, ctx2)) :
    ∀ rc2 : RequestContext, ctx2 = some rc2 →
      (rc2.request).isSome = true ∧ (∀ rc, ctx = some rc → rc2.region = rc.region) := by
  cases ctx with
  | none => simp [unfoldStep] at h
  | some rc =>
    cases hreq : rc.request with
    | none => simp [unfoldStep, hreq] at h
    | some req =>
      cases resp with
      | error e => simp [unfoldStep, hreq] at h
      | ok r =>
        cases htok : r.next_token with
        | none =>
          simp only [unfoldStep, hreq, htok] at h
          obtain ⟨-, h2⟩ := Prod.mk.injEq .. ▸ (Option.some.injEq .. ▸ h)
          intro rc2 hrc2
          rw [← h2] at hrc2
          cases hrc2
        | some t =>
          simp only [unfoldStep, hreq, htok] at h
          obtain ⟨-, h2⟩ := Prod.mk.injEq .. ▸ (Option.some.injEq .. ▸ h)
          intro rc2 hrc2
          rw [← h2] at hrc2
          cases hrc2
          constructor
          · rfl
          · intro rc' hrc'
            cases hrc'
            rfl

lemma unfoldStep_item_region (resp : Except Unit DescribeInstancesResult)
    (rc : RequestContext) (item : DetailResult) (ctx2 : Option RequestContext)
    (h : unfoldStep resp (some rc) = some (item, ctx2)) :
    ∀ ds : List Details, item = Except.ok (some ds) → ∀ d ∈ ds, d.region = rc.region := by
  cases hreq : rc.request with
  | none => simp [unfoldStep, hreq] at h
  | some req =>
    cases resp with
    | error e => simp [unfoldStep, hreq] at h
    | ok r =>
      cases htok : r.next_token with
      | none =>
        simp only [unfoldStep, hreq, htok] at h
        obtain ⟨h1, -⟩ := Prod.mk.injEq .. ▸ (Option.some.injEq .. ▸ h)
        intro ds hds
        rw [← h1] at hds
        exact process_reservations_region r.reservations rc.region ds
          (Except.ok.inj hds)
      | some t =>
        simp only [unfoldStep, hreq, htok] at h
        obtain ⟨h1, -⟩ := Prod.mk.injEq .. ▸ (Option.some.injEq .. ▸ h)
        intro ds hds
        rw [← h1] at hds
        exact process_reservations_region r.reservations rc.region ds
          (Except.ok.inj hds)

lemma paginateItems_region (script : List (Except Unit DescribeInstancesResult)) :
    ∀ (ctx : Option RequestContext) (region : String),
      (∀ rc, ctx = some rc → rc.region = region) →
      ∀ item ∈ paginateItems script ctx, ∀ ds : List Details,
        item = Except.ok (some ds) → ∀ d ∈ ds, d.region = region := by
  induction script with
  | nil => intro ctx region _ item hitem; simp [paginateItems] at hitem
  | cons resp rest ih =>
    intro ctx region hctx item hitem ds hds d hd
    rw [paginateItems] at hitem
    cases hstep : unfoldStep resp ctx with
    | none => rw [hstep] at hitem; simp at hitem
    | some pair =>
      obtain ⟨item0, ctx2⟩ := pair
      rw [hstep] at hitem
      rcases List.mem_cons.mp hitem with hhead | htail
      · cases ctx with
        | none => simp [unfoldStep] at hstep
        | some rc =>
          rw [hhead] at hds
          have hreg := unfoldStep_item_region resp rc item0 ctx2 hstep ds hds d hd
          rw [hreg, hctx rc rfl]
      · have hctx2 : ∀ rc2, ctx2 = some rc2 → rc2.region = region := by
          intro rc2 hrc2
          cases ctx with
          | none => simp [unfoldStep] at hstep
          | some rc =>
            have := (unfoldStep_next_ctx resp (some rc) item0 ctx2 hstep rc2 hrc2).2
            rw [this rc rfl, hctx rc rfl]
        exact ih ctx2 region hctx2 item htail ds hds d hd

lemma ctx_states_invariant (script : List (Except Unit DescribeInstancesResult)) :
    ∀ ctx : Option RequestContext,
      (∀ rc, ctx = some rc → (rc.request).isSome = true) →
      ∀ s ∈ ctx_states script ctx, ∀ rc, s = some rc → (rc.request).isSome = true := by
  induction script with
  | nil =>
    intro ctx hctx s hs
    simp only [ctx_states, List.mem_singleton] at hs
    rw [hs]
    exact hctx
  | cons resp rest ih =>
    intro ctx hctx s hs
    rw [ctx_states] at hs
    cases hstep : unfoldStep resp ctx with
    | none =>
      rw [hstep] at hs
      simp only [List.mem_singleton] at hs
      rw [hs]
      exact hctx
    | some pair =>
      obtain ⟨item0, ctx2⟩ := pair
      rw [hstep] at hs
      rcases List.mem_cons.mp hs with hhead | htail
      · rw [hhead]; exact hctx
      · refine ih ctx2 ?_ s htail
        intro rc2 hrc2
        exact (unfoldStep_next_ctx resp ctx item0 ctx2 hstep rc2 hrc2).1

/-- C3: the Reservation Flattener (`process_reservations`) returns an absent
result exactly when the input reservation list is absent; every present
list — including the empty one — yields a present (possibly empty) list,
so absence and emptiness are distinguishable in its output. -/
theorem C3_flattener_distinguishes_absence :
    ∀ (reservations : Option (List Reservation)) (region : String),
      (process_reservations reservations region = none ↔ reservations = none)
        ∧ process_reservations (some []) region = some [] := by
  intro reservations region
  constructor
  · cases reservations <;> simp [process_reservations]
  · rfl

/-- C4: the Tag Projector (`map_tags`) fills each of the slots `name`,
`project`, `environment` with the value (possibly absent) of the last
pair in list order whose key exactly equals `"Name"`, `"Project"`,
`"Environment"` respectively, ignoring pairs with any other or absent
key (`spec_tag_slot` states exactly that contract); in particular the
spec example projects to
`{name := "web1-renamed", project := "core", environment := absent}`. -/
theorem C4_tag_projector_last_write_wins :
    (∀ tags : List Tag,
      (map_tags (some tags)).name = spec_tag_slot "Name" tags
        ∧ (map_tags (some tags)).project = spec_tag_slot "Project" tags
        ∧ (map_tags (some tags)).environment = spec_tag_slot "Environment" tags)
      ∧ map_tags (some [{ key := some "Name", value := some "web1" },
                        { key := some "Project", value := some "core" },
                        { key := some "Name", value := some "web1-renamed" }])
          = { name := some "web1-renamed", project := some "core", environment := none } := by
  constructor
  · intro tags
    rw [map_tags_some_eq]
    exact ⟨rfl, rfl, rfl⟩
  · decide

/-- C5: for the `"all"` selector the Multi-Region Orchestrator
(`process_all_regions`) produces exactly the concatenation, in declared
catalog order (`ap-east-1` first through `af-south-1` last), of the
Region Aggregator output `process_region` computed independently for
each catalog region. -/
theorem C5_all_regions_catalog_concat :
    ∀ sdk : String → List (Except Unit DescribeInstancesResult),
      process_all_regions sdk
          = (region_list.map (fun r => process_region (sdk r) r)).flatten
        ∧ region_list.head? = some "ap-east-1"
        ∧ region_list.getLast? = some "af-south-1" := by
  intro sdk
  refine ⟨?_, by decide, by decide⟩
  show region_list.foldl _ [] = _
  rw [foldl_extend region_list (fun r => process_region (sdk r) r) []]
  rw [List.nil_append]

/-- C7: the Instance Normalizer (`instance_map`) produces exactly one
`Details` record per raw instance, never absent — even for an instance
with no tags and all optional fields absent; the lifecycle-state field is
the state object name when the state object is present and absent
otherwise, and the three tag slots come from one `map_tags` invocation. -/
theorem C7_normalizer_exactly_one :
    ∀ (a : Instance) (region : String),
      instance_map (some [a]) region
          = some [{ environment := (map_tags a.tags).environment
                    instance_id := a.instance_id
                    instance_type := a.instance_type
                    key_name := a.key_name
                    launch_time := a.launch_time
                    name := (map_tags a.tags).name
                    project := (map_tags a.tags).project
                    region := region
                    source_dest_check := a.source_dest_check
                    state := match a.state with
                      | some s => s.name
                      | _ => none }]
        ∧ (∀ is : List Instance,
            (instance_map (some is) region).map List.length = some is.length
              ∧ (instance_map (some is) region).isSome = true) := by
  intro a region
  constructor
  · rfl
  · intro is
    constructor
    · simp [instance_map]
    · simp [instance_map]

/-- C10: every state reachable by the unfold loop of `describe_instances`
from its initial state carries a present pending request whenever it is
`Some`, so the loop termination path for an absent request is never
taken. -/
theorem C10_request_always_present :
    ∀ (script : List (Except Unit DescribeInstancesResult)) (region : String)
      (s : Option RequestContext),
      s ∈ ctx_states script (describe_instances_init region) →
      ∀ rc : RequestContext, s = some rc → (rc.request).isSome = true := by
  intro script region s hs rc hrc
  refine ctx_states_invariant script (describe_instances_init region) ?_ s hs rc hrc
  intro rc0 hrc0
  cases hrc0
  rfl

/-- C10 witness: the initial state for `us-east-1` is reachable and its
request is present. -/
theorem C10_request_always_present_witness :
    (describe_instances_init "us-east-1"
        ∈ ctx_states [] (describe_instances_init "us-east-1"))
      ∧ (RequestContext.mk (some (get_instance_request (some 25))) "us-east-1").request.isSome
          = true :=
  ⟨by decide,
   C10_request_always_present [] "us-east-1" (describe_instances_init "us-east-1")
     (by decide) (RequestContext.mk (some (get_instance_request (some 25))) "us-east-1") rfl⟩

lemma filterMap_toOption_map_ok (pages : List DescribeInstancesResult) (region : String) :
    ((pages.map (fun p =>
        (Except.ok (process_reservations p.reservations region) : DetailResult))).filterMap
      (fun v => v.toOption))
      = pages.map (fun p => process_reservations p.reservations region) := by
  induction pages with
  | nil => rfl
  | cons p ps ih =>
    simp only [Except.toOption] at ih
    simp only [List.map_cons, List.filterMap_cons, Except.toOption]
    rw [ih]

/-- C1: with every page fetch succeeding, the Paginator's first request is
`get_instance_request(Some(25))` (bound 25, no token); each of the n
requests carries bound 25; request i+1 carries exactly page i's token
(`next_request p.next_token`); a token-less page is the final emitted
item; the stream emits exactly the n per-page flattenings in fetch order;
and the whole run ignores any responses past page n (no further fetch). -/
theorem C1_paginator_token_threading :
    ∀ (pages : List DescribeInstancesResult) (region : String)
      (extra : List (Except Unit DescribeInstancesResult)),
      (∀ p ∈ pages.dropLast, (p.next_token).isSome = true) →
      ((pages.getLast?).map (fun p => p.next_token)) = some none →
      paginateItems (pages.map Except.ok ++ extra) (describe_instances_init region)
          = pages.map (fun p => Except.ok (process_reservations p.reservations region))
        ∧ issuedRequests (pages.map Except.ok ++ extra) (describe_instances_init region)
          = get_instance_request (some 25)
              :: pages.dropLast.map (fun p => next_request p.next_token)
        ∧ (issuedRequests (pages.map Except.ok ++ extra) (describe_instances_init region)).length
            = pages.length
        ∧ (get_instance_request (some 25)).next_token = none
        ∧ (∀ req ∈ issuedRequests (pages.map Except.ok ++ extra) (describe_instances_init region),
            req.max_results = some 25)
        ∧ (∀ tok : Option String, (next_request tok).next_token = tok) := by
  intro pages region extra h1 h2
  obtain ⟨hI, hR⟩ := pag_success_run pages (get_instance_request (some 25)) region extra h1 h2
  have hinit : describe_instances_init region
      = some ⟨some (get_instance_request (some 25)), region⟩ := rfl
  rw [hinit]
  have hne : pages ≠ [] := by
    intro h
    rw [h] at h2
    simp at h2
  refine ⟨hI, hR, ?_, rfl, ?_, fun tok => rfl⟩
  · rw [hR]
    simp only [List.length_cons, List.length_map, List.length_dropLast]
    have : 1 ≤ pages.length := List.length_pos.mpr hne
    omega
  · intro req hreq
    rw [hR] at hreq
    rcases List.mem_cons.mp hreq with h | h
    · rw [h]; rfl
    · obtain ⟨p, -, hp⟩ := List.mem_map.mp h
      rw [← hp]; rfl

/-- C1 witness: three successful pages, tokens on pages 1 and 2, none on
page 3, an extra scripted response never consumed. -/
theorem C1_paginator_token_threading_witness :
    (∀ p ∈ three_pages.dropLast, (p.next_token).isSome = true)
      ∧ ((three_pages.getLast?).map (fun p => p.next_token)) = some none
      ∧ paginateItems (three_pages.map Except.ok ++ [Except.error ()])
            (describe_instances_init "eu-west-1")
          = [Except.ok none, Except.ok none, Except.ok none]
      ∧ issuedRequests (three_pages.map Except.ok ++ [Except.error ()])
            (describe_instances_init "eu-west-1")
          = [get_instance_request (some 25), next_request (some "t1"),
             next_request (some "t2")] := by
  have h := C1_paginator_token_threading three_pages
    "eu-west-1" [Except.error ()] (by decide) (by decide)
  exact ⟨by decide, by decide, by rw [h.1]; decide, by rw [h.2.1]; decide⟩

/-- C2: if the first k-1 page fetches succeed with continuation tokens and
fetch k fails, the Region Aggregator's output is exactly the
concatenation of the flattened Details of pages 1 through k-1 (absent
pages contributing nothing); the page sequence emits no error value; and
the aggregator returns normally (it is a total function here, so no
exception reaches its caller). -/
theorem C2_failure_truncates :
    ∀ (pages : List DescribeInstancesResult) (region : String)
      (extra : List (Except Unit DescribeInstancesResult)),
      (∀ p ∈ pages, (p.next_token).isSome = true) →
      process_region (pages.map Except.ok ++ Except.error () :: extra) region
          = ((pages.map (fun p => process_reservations p.reservations region)).filterMap
              (fun v => v)).flatten
        ∧ (∀ item ∈ paginateItems (pages.map Except.ok ++ Except.error () :: extra)
              (describe_instances_init region), item.isOk = true) := by
  intro pages region extra h1
  obtain ⟨hI, hR⟩ := pag_error_run pages (get_instance_request (some 25)) region extra h1
  have hinit : describe_instances_init region
      = some ⟨some (get_instance_request (some 25)), region⟩ := rfl
  constructor
  · show ((((paginateItems (pages.map Except.ok ++ Except.error () :: extra)
        (describe_instances_init region)).filterMap (fun v => v.toOption)).filterMap
          (fun v => v)).flatten) = _
    rw [hinit, hI, filterMap_toOption_map_ok]
  · intro item hitem
    rw [hinit, hI] at hitem
    obtain ⟨p, -, hp⟩ := List.mem_map.mp hitem
    rw [← hp]
    rfl

/-- C2 witness: page 1 succeeds with a token, fetch 2 fails; the region
output is exactly page 1's flattened Details. -/
theorem C2_failure_truncates_witness :
    (∀ p ∈ [bare_page], (p.next_token).isSome = true)
      ∧ process_region ([bare_page].map Except.ok ++ Except.error () :: []) "us-west-2"
        = [bare_details "us-west-2"] := by
  have h := C2_failure_truncates [bare_page] "us-west-2" [] (by decide)
  exact ⟨by decide, by rw [h.1]; decide⟩

/-- C6: every `Details` record produced for a single-region run has its
`region` field equal to the requested region string verbatim — it is
stamped by the pipeline, whatever the raw instance payload contains. -/
theorem C6_region_stamped :
    ∀ (sdk : String → List (Except Unit DescribeInstancesResult)) (region : String)
      (d : Details), d ∈ process_single_region sdk region → d.region = region := by
  intro sdk region d hd
  have hd2 : d ∈ ((((paginateItems (sdk region) (describe_instances_init region)).filterMap
      (fun v => v.toOption)).filterMap (fun v => v)).flatten) := hd
  obtain ⟨l, hl, hdl⟩ := List.mem_flatten.mp hd2
  obtain ⟨o, ho, hol⟩ := List.mem_filterMap.mp hl
  obtain ⟨item, hitem, hio⟩ := List.mem_filterMap.mp ho
  have hiat : item = Except.ok (some l) := by
    cases item with
    | ok v =>
      have : v = o := Option.some.inj hio
      rw [this]
      exact congrArg Except.ok hol
    | error e => cases hio
  refine paginateItems_region (sdk region) (describe_instances_init region) region
    ?_ item hitem l hiat d hdl
  intro rc hrc
  cases hrc
  rfl

/-- C6 witness: a one-page, one-instance run for `us-east-1` produces a
record whose region field is `us-east-1`. -/
theorem C6_region_stamped_witness :
    named_details "us-east-1" ∈ process_single_region named_sdk "us-east-1"
      ∧ (named_details "us-east-1").region = "us-east-1" :=
  ⟨by decide,
   C6_region_stamped named_sdk "us-east-1" (named_details "us-east-1") (by decide)⟩

set_option maxRecDepth 8192 in
/-- C8 counterexample: when no argument is supplied the program does fail
fatally with no effects, but its message is `no_args_msg`, which cannot
contain the catalog listing (it is shorter than the listing), so the
claim that the message names the valid catalog fails for this case. -/
theorem C8_no_args_message_counterexample :
    main_model stub_env ["program"] = ([], Outcome.fatal no_args_msg)
      ∧ ¬ ∃ pre post : String,
          no_args_msg = pre ++ String.intercalate ",\n" region_list ++ post := by
  refine ⟨rfl, ?_⟩
  rintro ⟨pre, post, h⟩
  have hlen := congrArg String.length h
  rw [String.length_append, String.length_append] at hlen
  have hcat : ¬ (String.intercalate ",\n" region_list).length ≤ no_args_msg.length := by
    decide
  exact hcat (by omega)

/-- C8 amended: a selector that is neither a catalog member nor `"all"`
makes the program fail with a fatal error whose message names the valid
catalog, with no SDK call issued and no output file created; a missing
argument likewise fails fatally before any effect, but with the
no-arguments message (which does not name the catalog). -/
theorem C8_invalid_region_fatal :
    ∀ (env : Env) (pn region : String) (rest : List String),
      region_list.contains region = false → region ≠ "all" →
      main_model env (pn :: region :: rest) = ([], Outcome.fatal invalid_region_msg)
        ∧ (∃ pre post : String,
            invalid_region_msg = pre ++ String.intercalate ",\n" region_list ++ post)
        ∧ main_model env [pn] = ([], Outcome.fatal no_args_msg) := by
  intro env pn region rest hcontains hall
  have hbeq : (region == "all") = false := by
    cases hb : region == "all" with
    | false => rfl
    | true => exact absurd (eq_of_beq hb) hall
  refine ⟨?_, ⟨"The supplied region does not match any of the the available options: ",
      ",\nall", rfl⟩, rfl⟩
  simp only [main_model, hcontains, hbeq, Bool.not_false, Bool.and_self, if_true]

/-- C8 witness: the selector `mars-1` is rejected with the catalog-naming
message, no SDK call and no file creation. -/
theorem C8_invalid_region_fatal_witness :
    region_list.contains "mars-1" = false ∧ "mars-1" ≠ "all"
      ∧ (main_model stub_env ["program", "mars-1"]
            = ([], Outcome.fatal invalid_region_msg)
          ∧ (∃ pre post : String,
              invalid_region_msg = pre ++ String.intercalate ",\n" region_list ++ post)
          ∧ main_model stub_env ["program"] = ([], Outcome.fatal no_args_msg)) :=
  ⟨by decide, by decide,
   C8_invalid_region_fatal stub_env "program" "mars-1" [] (by decide) (by decide)⟩

/-- C9: if serialization of the aggregated output fails, the run writes an
empty-string payload to the output file and still ends on the success
path — a serialization failure is never a process-fatal error. -/
theorem C9_serialization_fallback :
    ∀ (env : Env) (region : String),
      env.createOk = true → env.writeOk = true →
      env.serialize (if region == "all" then process_all_regions env.sdk
          else process_single_region env.sdk region) = none →
      (run_model env region).2 = Outcome.success "successfully wrote to instance_results.json"
        ∧ Effect.fileWrite "" ∈ (run_model env region).1 := by
  intro env region hc hw hs
  obtain ⟨sdk, createOk, writeOk, serialize⟩ := env
  simp only at hc hw hs
  subst hc
  subst hw
  simp only [run_model, hs, Option.getD_none]
  constructor
  · trivial
  · refine List.mem_cons_of_mem _ (List.mem_append_right _ ?_)
    exact List.mem_singleton.mpr rfl

/-- C9 witness: with a failing serializer and working file IO, the run for
`eu-west-1` succeeds and writes the empty string. -/
theorem C9_serialization_fallback_witness :
    stub_env.createOk = true ∧ stub_env.writeOk = true
      ∧ stub_env.serialize (if ("eu-west-1" == "all") = true
            then process_all_regions stub_env.sdk
            else process_single_region stub_env.sdk "eu-west-1") = none
      ∧ ((run_model stub_env "eu-west-1").2
            = Outcome.success "successfully wrote to instance_results.json"
          ∧ Effect.fileWrite "" ∈ (run_model stub_env "eu-west-1").1) :=
  ⟨rfl, rfl, rfl, C9_serialization_fallback stub_env "eu-west-1" rfl rfl rfl⟩

end EC2Mon
